import Mathlib

/-!
Shallow embedding of the mesh-master boundary-representation mesh kernel
(`EditableMesh` and its topology operations) together with proofs of the
behavioural claims about it.

Modelling conventions:
* JavaScript `Map<ID, T>` tables are modelled as insertion-ordered lists of
  entries; `Map.get`/`Map.set`/`Map.delete` become `tget`/`tset`/`tdel`.
  Entries carry their own id, as in the source, and the store only ever
  keys an entry by its own id.
* JavaScript numbers are modelled as rationals (`ℚ`).  All concrete inputs
  used in the theorems below evaluate exactly in IEEE double arithmetic
  (small integers, halves and quarters), so the rational model agrees with
  the source on those inputs.
* `Math.sqrt` is modelled by `ratSqrt`, the exact rational square root on
  perfect squares; every square root taken in a theorem below is of a
  perfect square.
* Thrown JavaScript errors (including `TypeError`s arising from failed
  non-null `!` assertions) are modelled with `Except MeshError`.
-/

-- Rational arithmetic is sealed irreducible by default; reopening it lets
-- `decide` evaluate the concrete mesh computations below in the kernel.
unseal Rat.add Rat.mul Rat.inv Rat.sub

namespace MeshMaster

/-- Three-dimensional vector; the source type `Vector3 = {x, y, z}`. -/
structure Vector3 where
  x : ℚ
  y : ℚ
  z : ℚ
  deriving DecidableEq, Repr

/-- Two-dimensional UV coordinate; the source type `Vector2 = {u, v}`. -/
structure Vector2 where
  u : ℚ
  v : ℚ
  deriving DecidableEq, Repr

/-- Vertex record; the source type `Vertex = {id, position, color?}`. -/
structure Vertex where
  id : Nat
  position : Vector3
  color : Option (ℚ × ℚ × ℚ) := none
  deriving DecidableEq, Repr

/-- Edge record; the source type `Edge = {id, vertexIds: [ID, ID], faceIds: ID[]}`. -/
structure Edge where
  id : Nat
  vertexIds : Nat × Nat
  faceIds : List Nat
  deriving DecidableEq, Repr

/-- Face record; the source type
`Face = {id, vertexIds, edgeIds, materialId, uvs}`. -/
structure Face where
  id : Nat
  vertexIds : List Nat
  edgeIds : List Nat
  materialId : Option Nat
  uvs : List Vector2
  deriving DecidableEq, Repr

/-- Material record.  Only the id and name take part in any claim
(`assignMaterial` checks only table membership), so the remaining optional
rendering fields of the source type are not represented. -/
structure Material where
  id : Nat
  name : String
  deriving DecidableEq, Repr

/-- The mesh store: `EditableMesh`'s vertex/edge/face/material tables and the
shared id counter.  The uvMaps/bones/skeletons/animationClips side tables of
the source class are omitted: no claim reads or writes them. -/
structure EditableMesh where
  vertices : List Vertex
  edges : List Edge
  faces : List Face
  materials : List Material
  nextId : Nat
  deriving DecidableEq, Repr

/-- Lookup in an id-keyed table; models `Map.get(i)` for a table whose
entries carry their key as their `id` field. -/
def tget (key : α → Nat) (t : List α) (i : Nat) : Option α :=
  t.find? fun a => key a = i

/-- Insertion in an id-keyed table; models `Map.set(key a, a)`: replace the
entry with that key if present, otherwise append. -/
def tset (key : α → Nat) (t : List α) (a : α) : List α :=
  if (t.find? fun b => key b = key a).isSome then
    t.map fun b => if key b = key a then a else b
  else t ++ [a]

/-- Deletion from an id-keyed table; models `Map.delete(i)`. -/
def tdel (key : α → Nat) (t : List α) (i : Nat) : List α :=
  t.filter fun a => key a ≠ i

/-- In-place mutation of the entry with key `i`; models the source pattern
of getting an entry from a `Map` and assigning to its fields. -/
def tupd (key : α → Nat) (t : List α) (i : Nat) (f : α → α) : List α :=
  t.map fun a => if key a = i then f a else a

/-- Errors thrown by the mesh store and the topology operations.  A failed
non-null assertion (`!`) in the source raises a `TypeError` at run time;
it is modelled by `missingElement`. -/
inductive MeshError where
  | invalidVertexIds
  | faceTooFewVertices
  | invalidVertexId (id : Nat)
  | uvCountMismatch
  | needTwoVerticesToMerge
  | missingElement (id : Nat)
  deriving DecidableEq, Repr

/-- Does the edge touch the vertex?  Models `edge.vertexIds.includes(id)`. -/
def edgeTouches (e : Edge) (i : Nat) : Prop :=
  e.vertexIds.1 = i ∨ e.vertexIds.2 = i

instance (e : Edge) (i : Nat) : Decidable (edgeTouches e i) := by
  unfold edgeTouches; infer_instance

/-- Source `EditableMesh.getVertex`. -/
def getVertex (m : EditableMesh) (i : Nat) : Option Vertex :=
  tget Vertex.id m.vertices i

/-- Source `EditableMesh.getFace`. -/
def getFace (m : EditableMesh) (i : Nat) : Option Face :=
  tget Face.id m.faces i

/-- Source `EditableMesh.addVertex`: fresh id from the shared counter, insert
the vertex record. -/
def addVertex (m : EditableMesh) (position : Vector3)
    (color : Option (ℚ × ℚ × ℚ) := none) : EditableMesh × Nat :=
  let i := m.nextId
  ({ m with
      nextId := i + 1
      vertices := tset Vertex.id m.vertices { id := i, position := position, color := color } },
   i)

/-- Source `EditableMesh.addEdge`: fails when either vertex id is absent,
otherwise inserts a fresh edge with empty `faceIds`. -/
def addEdge (m : EditableMesh) (v1 v2 : Nat) : Except MeshError (EditableMesh × Nat) :=
  if (getVertex m v1).isNone ∨ (getVertex m v2).isNone then
    .error .invalidVertexIds
  else
    let i := m.nextId
    .ok ({ m with
            nextId := i + 1
            edges := tset Edge.id m.edges { id := i, vertexIds := (v1, v2), faceIds := [] } },
         i)

/-- Source `EditableMesh.removeFace`: detach the face from each edge listed
in its `edgeIds`, then delete the face.  No-op when the id is absent. -/
def removeFace (m : EditableMesh) (i : Nat) : EditableMesh :=
  match tget Face.id m.faces i with
  | none => m
  | some face =>
    let edges := face.edgeIds.foldl
      (fun es eid => tupd Edge.id es eid fun e =>
        { e with faceIds := e.faceIds.filter fun fid => fid ≠ i }) m.edges
    { m with edges := edges, faces := tdel Face.id m.faces i }

/-- Source `EditableMesh.removeVertex`: no-op when absent; otherwise snapshot
the edges touching the vertex, remove every face listed on those edges (the
source iterates each snapshotted edge's `faceIds` array as captured at the
`forEach` call), then delete those edges, then delete the vertex. -/
def removeVertex (m : EditableMesh) (i : Nat) : EditableMesh :=
  match tget Vertex.id m.vertices i with
  | none => m
  | some _ =>
    let connected := m.edges.filter fun e => decide (edgeTouches e i)
    let m1 := (connected.map Edge.faceIds).foldl (fun acc l => l.foldl removeFace acc) m
    let m2 := connected.foldl (fun acc e => { acc with edges := tdel Edge.id acc.edges e.id }) m1
    { m2 with vertices := tdel Vertex.id m2.vertices i }

/-- Source `EditableMesh.updateFaceUVs`: silently return when the face id is
absent; throw `UvCountMismatch` when the UV count differs from the vertex
count; otherwise overwrite the face's `uvs`. -/
def updateFaceUVs (m : EditableMesh) (faceId : Nat) (uvs : List Vector2) :
    Except MeshError EditableMesh :=
  match tget Face.id m.faces faceId with
  | none => .ok m
  | some face =>
    if uvs.length ≠ face.vertexIds.length then
      .error .uvCountMismatch
    else
      .ok { m with faces := tupd Face.id m.faces faceId fun f => { f with uvs := uvs } }

/-- Source `EditableMesh.assignMaterial`: warn and return (mesh unchanged)
when the face id, or a non-null material id, is unknown; otherwise set the
face's `materialId`. -/
def assignMaterial (m : EditableMesh) (faceId : Nat) (materialId : Option Nat) :
    EditableMesh :=
  match tget Face.id m.faces faceId with
  | none => m
  | some _ =>
    match materialId with
    | some mid =>
      if (tget Material.id m.materials mid).isNone then m
      else { m with faces := tupd Face.id m.faces faceId fun f => { f with materialId := materialId } }
    | none =>
      { m with faces := tupd Face.id m.faces faceId fun f => { f with materialId := materialId } }

/-- Result record returned by `mergeVertices`. -/
structure MergeResult where
  mergedVertexId : Nat
  removedVertexIds : List Nat
  updatedEdgeIds : List Nat
  updatedFaceIds : List Nat
  deriving DecidableEq, Repr

/-- Source helper `calculateAveragePosition`: componentwise arithmetic mean. -/
def calculateAveragePosition (vs : List Vertex) : Vector3 :=
  let sum := vs.foldl
    (fun acc v => Vector3.mk (acc.x + v.position.x) (acc.y + v.position.y) (acc.z + v.position.z))
    ⟨0, 0, 0⟩
  ⟨sum.x / vs.length, sum.y / vs.length, sum.z / vs.length⟩

/-- First-insertion-order deduplication; models filling a JavaScript `Set`
and iterating it. -/
def insertedOrderDedup (l : List Nat) : List Nat :=
  l.foldl (fun acc x => if x ∈ acc then acc else acc ++ [x]) []

/-- Mutable state threaded through the per-vertex loop of `mergeVertices`. -/
structure MergeLoopState where
  mesh : EditableMesh
  removedVertexIds : List Nat
  updatedEdgeIds : List Nat
  updatedFaceIds : List Nat

/-- One iteration of the `mergeVertices` loop: redirect the edges touching
`vertexId` to the survivor, redirect the first occurrence of `vertexId` in
each face registered on those edges, then delete the vertex.  The source
dereferences `faces.get(faceId)!`, so an unknown registered face id throws. -/
def mergeStep (survivor : Nat) (s : MergeLoopState) (vertexId : Nat) :
    Except MeshError MergeLoopState := do
  let connected := s.mesh.edges.filter fun e => decide (edgeTouches e vertexId)
  let edges := connected.foldl
    (fun es e => tupd Edge.id es e.id fun e' =>
      if e'.vertexIds.1 = vertexId then { e' with vertexIds := (survivor, e'.vertexIds.2) }
      else { e' with vertexIds := (e'.vertexIds.1, survivor) })
    s.mesh.edges
  let mesh := { s.mesh with edges := edges }
  let updatedEdgeIds := s.updatedEdgeIds ++ connected.map Edge.id
  let connectedFaces := insertedOrderDedup (connected.map Edge.faceIds).flatten
  let (mesh, updatedFaceIds) ← connectedFaces.foldlM
    (fun (acc : EditableMesh × List Nat) faceId => do
      match tget Face.id acc.1.faces faceId with
      | none => throw (.missingElement faceId)
      | some face =>
        if vertexId ∈ face.vertexIds then
          let face' := { face with
            vertexIds := face.vertexIds.set (face.vertexIds.indexOf vertexId) survivor }
          pure ({ acc.1 with faces := tupd Face.id acc.1.faces faceId fun _ => face' },
                acc.2 ++ [faceId])
        else
          pure acc)
    (mesh, s.updatedFaceIds)
  let mesh := { mesh with vertices := tdel Vertex.id mesh.vertices vertexId }
  pure { mesh := mesh
         removedVertexIds := s.removedVertexIds ++ [vertexId]
         updatedEdgeIds := updatedEdgeIds
         updatedFaceIds := updatedFaceIds }

/-- One iteration of the duplicate-edge pass of `mergeVertices`.  The running
`edgeMap` associates the string key `vertexIds[0] + "," + vertexIds[1]` —
injective in the two ids, hence modelled as the ordered pair — with the id of
the edge kept for that key.  The source dereferences `edges.get(edgeId)!` and
`edges.get(edgeMap.get(key)!)!`, so a stale id throws. -/
def dedupStep (st : List ((Nat × Nat) × Nat) × EditableMesh) (edgeId : Nat) :
    Except MeshError (List ((Nat × Nat) × Nat) × EditableMesh) := do
  let (emap, m) := st
  match tget Edge.id m.edges edgeId with
  | none => throw (.missingElement edgeId)
  | some edge =>
    let key := edge.vertexIds
    match emap.find? fun kv => kv.1 = key with
    | some kv =>
      match tget Edge.id m.edges kv.2 with
      | none => throw (.missingElement kv.2)
      | some _ =>
        let mergeIn := fun (l : List Nat) (fid : Nat) => if fid ∈ l then l else l ++ [fid]
        let edges := tupd Edge.id m.edges kv.2 fun ex =>
          { ex with faceIds := edge.faceIds.foldl mergeIn ex.faceIds }
        pure (emap, { m with edges := tdel Edge.id edges edgeId })
    | none => pure (emap ++ [(key, edgeId)], m)

/-- Source `mergeVertices` (operations/merge.ts): requires at least two ids;
moves the first (surviving) vertex to the supplied position or the mean of
the input vertices; for every other id redirects edges and faces to the
survivor and deletes it; finally walks `updatedEdgeIds` coalescing edges
whose ordered `vertexIds` string keys collide.  The mean is only computed —
and hence only dereferences the input vertices — when no explicit position
is supplied. -/
def mergeVertices (m : EditableMesh) (vertexIds : List Nat) (posOpt : Option Vector3) :
    Except MeshError (EditableMesh × MergeResult) := do
  if vertexIds.length < 2 then throw .needTwoVerticesToMerge
  let survivor := vertexIds.headD 0
  let position ← match posOpt with
    | some p => pure p
    | none =>
      match vertexIds.find? fun v => (getVertex m v).isNone with
      | some v => throw (.missingElement v)
      | none => pure (calculateAveragePosition (vertexIds.filterMap (getVertex m)))
  match getVertex m survivor with
  | none => throw (.missingElement survivor)
  | some _ =>
    let m := { m with
      vertices := tupd Vertex.id m.vertices survivor fun v => { v with position := position } }
    let s ← vertexIds.tail.foldlM (mergeStep survivor)
      { mesh := m, removedVertexIds := [], updatedEdgeIds := [], updatedFaceIds := [] }
    let (_, mesh) ← s.updatedEdgeIds.foldlM dedupStep ([], s.mesh)
    pure (mesh,
      { mergedVertexId := survivor
        removedVertexIds := s.removedVertexIds
        updatedEdgeIds := s.updatedEdgeIds
        updatedFaceIds := s.updatedFaceIds })

/-- Does the edge join `v1` and `v2` in either order?  The reuse test of the
edge-scanning loop in `addFace`. -/
def matchesPair (v1 v2 : Nat) (e : Edge) : Prop :=
  (e.vertexIds.1 = v1 ∧ e.vertexIds.2 = v2) ∨ (e.vertexIds.1 = v2 ∧ e.vertexIds.2 = v1)

instance (v1 v2 : Nat) (e : Edge) : Decidable (matchesPair v1 v2 e) := by
  unfold matchesPair; infer_instance

/-- State threaded through the edge-creation loop of `addFace`: the id
counter, the edge table, and the accumulated `edgeIds` of the new face. -/
structure AddFaceState where
  nextId : Nat
  edges : List Edge
  edgeIds : List Nat
  deriving DecidableEq, Repr

/-- One iteration of the `addFace` edge loop for the consecutive vertex pair
`p`: reuse the first edge matching the unordered pair, appending `faceId` to
its `faceIds` unless already present; otherwise create a fresh edge (the
source calls `addEdge`, whose vertex-existence check cannot fail here since
`addFace` validated every vertex id up front) and push `faceId` onto it. -/
def addFaceStep (faceId : Nat) (s : AddFaceState) (p : Nat × Nat) : AddFaceState :=
  match s.edges.find? fun e => decide (matchesPair p.1 p.2 e) with
  | some e =>
    { s with
      edges := tupd Edge.id s.edges e.id fun e' =>
        if faceId ∈ e'.faceIds then e' else { e' with faceIds := e'.faceIds ++ [faceId] }
      edgeIds := s.edgeIds ++ [e.id] }
  | none =>
    { nextId := s.nextId + 1
      edges := tset Edge.id s.edges { id := s.nextId, vertexIds := p, faceIds := [faceId] }
      edgeIds := s.edgeIds ++ [s.nextId] }

/-- Validated part of `addFace` (run after its two guards): take the fresh
face id, run the edge loop over the cyclic consecutive pairs, and insert the
face record with default `(0,0)` UVs; returns the updated mesh and the face
id. -/
def addFaceBody (m : EditableMesh) (vertexIds : List Nat) (materialId : Option Nat) :
    EditableMesh × Nat :=
  let i := m.nextId
  let pairs := vertexIds.zip (vertexIds.rotate 1)
  let s := pairs.foldl (addFaceStep i) { nextId := i + 1, edges := m.edges, edgeIds := [] }
  let face : Face :=
    { id := i, vertexIds := vertexIds, edgeIds := s.edgeIds,
      materialId := materialId, uvs := vertexIds.map fun _ => ⟨0, 0⟩ }
  ({ m with nextId := s.nextId, edges := s.edges, faces := tset Face.id m.faces face }, i)

/-- Source `EditableMesh.addFace`: reject fewer than three vertex ids, reject
an unknown vertex id (the per-vertex numeric-position check of the source is
vacuous here because positions are rationals in the model), then run the
validated body. -/
def addFace (m : EditableMesh) (vertexIds : List Nat) (materialId : Option Nat) :
    Except MeshError (EditableMesh × Nat) :=
  if vertexIds.length < 3 then .error .faceTooFewVertices
  else
    match vertexIds.find? fun v => (getVertex m v).isNone with
    | some v => .error (.invalidVertexId v)
    | none => .ok (addFaceBody m vertexIds materialId)

/-- Mirror axis selector; the source option `axis: 'x' | 'y' | 'z'`. -/
inductive Axis where
  | x
  | y
  | z
  deriving DecidableEq, Repr

/-- Reflection of one vertex across the plane through `o` normal to `axis`;
the per-vertex body of the source `mirrorMesh` switch. -/
def mirrorVertex (axis : Axis) (o : Vector3) (v : Vertex) : Vertex :=
  match axis with
  | .x => { v with position := { v.position with x := o.x - (v.position.x - o.x) } }
  | .y => { v with position := { v.position with y := o.y - (v.position.y - o.y) } }
  | .z => { v with position := { v.position with z := o.z - (v.position.z - o.z) } }

/-- Source `mirrorMesh`: reflect every vertex across the chosen axis (origin
defaulting to the zero vector), then reverse every face's `vertexIds` in
place, mutating and returning the same mesh. -/
def mirrorMesh (m : EditableMesh) (axis : Axis) (origin : Option Vector3) :
    EditableMesh :=
  let o := origin.getD ⟨0, 0, 0⟩
  let m1 := { m with vertices := m.vertices.map (mirrorVertex axis o) }
  { m1 with faces := m1.faces.map fun f => { f with vertexIds := f.vertexIds.reverse } }

/-- Source `EditableMesh.moveVertex`: no-op when absent, otherwise overwrite
the position. -/
def moveVertex (m : EditableMesh) (i : Nat) (p : Vector3) : EditableMesh :=
  match getVertex m i with
  | none => m
  | some _ =>
    { m with vertices := tupd Vertex.id m.vertices i fun v => { v with position := p } }

/-- Greatest `k` with `k * k ≤ n`, by direct search (kernel-reducible). -/
def natSqrtFold (n : Nat) : Nat :=
  (List.range (n + 1)).foldl (fun acc k => if k * k ≤ n then k else acc) 0

/-- Exact rational square root: the value of `Math.sqrt` whenever the
argument is the square of a rational, which is the case for every square
root taken in the theorems below.  (On other inputs `Math.sqrt` is
irrational and has no exact rational counterpart.) -/
def ratSqrt (q : ℚ) : ℚ :=
  (natSqrtFold q.num.toNat : ℚ) / (natSqrtFold q.den : ℚ)

/-- Source helper `distance` in smooth.ts: Euclidean distance. -/
def dist3 (v1 v2 : Vector3) : ℚ :=
  let dx := v2.x - v1.x
  let dy := v2.y - v1.y
  let dz := v2.z - v1.z
  ratSqrt (dx * dx + dy * dy + dz * dz)

/-- Source helper `computeNormal` in smooth.ts: unnormalized cross product of
the first two triangle edges. -/
def computeNormal (v1 v2 v3 : Vector3) : Vector3 :=
  let u := Vector3.mk (v2.x - v1.x) (v2.y - v1.y) (v2.z - v1.z)
  let w := Vector3.mk (v3.x - v1.x) (v3.y - v1.y) (v3.z - v1.z)
  ⟨u.y * w.z - u.z * w.y, u.z * w.x - u.x * w.z, u.x * w.y - u.y * w.x⟩

/-- Position of a vertex looked up through a non-null assertion in the
source (`mesh.getVertex(id)!.position`); the model supplies a zero default
on the id-absent paths where the source would throw a `TypeError`.  No claim
below reaches such a path. -/
def getPosD (m : EditableMesh) (i : Nat) : Vector3 :=
  ((getVertex m i).map Vertex.position).getD ⟨0, 0, 0⟩

/-- Options record of `smoothMesh` with the source's destructuring
defaults. -/
structure SmoothOptions where
  iterations : Int := 1
  alpha : ℚ := 1
  preserveBoundaries : Bool := true
  preserveFeatures : Bool := true
  featureAngle : ℚ := 30
  useWeights : Bool := true
  deriving Repr

/-- Canonical form of an unordered vertex pair; models the source boundary
key `[v1, v2].sort().join('-')`, which is a canonical, injective encoding of
the unordered pair, as is the ordered `(min, max)` pair used here. -/
def boundaryKey (v1 v2 : Nat) : Nat × Nat := (min v1 v2, max v1 v2)

/-- Increment a counter in an insertion-ordered count map; models
`map.set(key, (map.get(key) ?? 0) + 1)`. -/
def bumpCount (mp : List ((Nat × Nat) × Nat)) (k : Nat × Nat) : List ((Nat × Nat) × Nat) :=
  if (mp.find? fun kv => kv.1 = k).isSome then
    mp.map fun kv => if kv.1 = k then (kv.1, kv.2 + 1) else kv
  else mp ++ [(k, 1)]

/-- All index pairs `i < j` of a list, in the nested-loop order of the
feature-vertex detection in smooth.ts. -/
def upperPairs : List α → List (α × α)
  | [] => []
  | a :: l => l.map (fun b => (a, b)) ++ upperPairs l

/-- Source `smoothMesh` (operations/smooth.ts).  `featureTest n1 n2` models
`Math.acos(dotProduct(n1, n2)) > featureAngle * π / 180`, which involves the
irrational `acos`/`π` and is therefore taken as a parameter; every theorem
below applies `smoothMesh` to a mesh with no faces, on which the test is
never invoked.  Weights use the initial positions; each iteration reads the
live positions of the previous iteration and applies all updates after the
whole round (Jacobi update), exactly as the source does. -/
def smoothMesh (featureTest : Vector3 → Vector3 → Bool) (m : EditableMesh)
    (opts : SmoothOptions) : EditableMesh :=
  if opts.iterations ≤ 0 ∨ opts.alpha ≤ 0 then m
  else
    let smoothingFactor := max 0 (min 1 opts.alpha)
    let vertices := m.vertices
    let edges := m.edges
    let faces := m.faces
    let isBoundary : Nat → Bool :=
      if opts.preserveBoundaries then
        let edgeFaceCount := faces.foldl
          (fun acc f => (f.vertexIds.zip (f.vertexIds.rotate 1)).foldl
            (fun a p => bumpCount a (boundaryKey p.1 p.2)) acc)
          []
        let boundaryEnds := (edgeFaceCount.filter fun kv => kv.2 = 1).foldl
          (fun s kv => s ++ [kv.1.1, kv.1.2]) []
        let verticesInFaces := faces.foldl (fun s f => s ++ f.vertexIds) []
        fun vid => decide (vid ∈ boundaryEnds) || !(decide (vid ∈ verticesInFaces))
      else fun _ => false
    let isFeature : Nat → Bool :=
      if opts.preserveFeatures then
        fun vid =>
          let connectedFaces := faces.filter fun f => decide (vid ∈ f.vertexIds)
          if connectedFaces.length = 0 then false
          else
            let normals := connectedFaces.map fun f =>
              computeNormal (getPosD m (f.vertexIds.getD 0 0))
                (getPosD m (f.vertexIds.getD 1 0)) (getPosD m (f.vertexIds.getD 2 0))
            (upperPairs normals).any fun p => featureTest p.1 p.2
      else fun _ => false
    let neighborsOf : Vertex → List (Nat × ℚ) := fun v =>
      edges.foldl
        (fun acc e =>
          let neighborId : Option Nat :=
            if e.vertexIds.1 = v.id then some e.vertexIds.2
            else if e.vertexIds.2 = v.id then some e.vertexIds.1
            else none
          match neighborId with
          | none => acc
          | some nid =>
            match getVertex m nid with
            | none => acc
            | some nv =>
              let weight := if opts.useWeights then 1 / dist3 v.position nv.position else 1
              acc ++ [(nid, weight)])
        []
    let vertexNeighbors := vertices.map fun v => (v.id, neighborsOf v)
    let round : EditableMesh → EditableMesh := fun cur =>
      let newPositions := vertices.foldl
        (fun acc v =>
          if (opts.preserveBoundaries && isBoundary v.id)
              || (opts.preserveFeatures && isFeature v.id) then acc
          else
            let neighbors := ((vertexNeighbors.find? fun kv => kv.1 = v.id).map Prod.snd).getD []
            if neighbors.length = 0 then acc
            else
              let totalWeight := neighbors.foldl (fun t p => t + p.2) 0
              let weightedSum := neighbors.foldl
                (fun (s : Vector3) p =>
                  let np := getPosD cur p.1
                  ⟨s.x + np.x * p.2, s.y + np.y * p.2, s.z + np.z * p.2⟩)
                (⟨0, 0, 0⟩ : Vector3)
              if 0 < totalWeight then
                let avg : Vector3 :=
                  ⟨weightedSum.x / totalWeight, weightedSum.y / totalWeight,
                   weightedSum.z / totalWeight⟩
                let vp := getPosD cur v.id
                acc ++ [(v.id,
                  (⟨vp.x + smoothingFactor * (avg.x - vp.x),
                    vp.y + smoothingFactor * (avg.y - vp.y),
                    vp.z + smoothingFactor * (avg.z - vp.z)⟩ : Vector3))]
              else acc)
        ([] : List (Nat × Vector3))
      newPositions.foldl (fun mm p => moveVertex mm p.1 p.2) cur
    (List.range opts.iterations.toNat).foldl (fun cur _ => round cur) m

/-- Issue kinds reported by the topology validator. -/
inductive IssueType where
  | orphanedVertex
  | isolatedEdge
  | degenerateFace
  | nonManifoldEdge
  | overlappingFace
  | inconsistentFaceEdgeLink
  | invalidFaceSize
  | nonPlanarQuad
  | isolatedComponent
  deriving DecidableEq, Repr

/-- Element kinds named by a topology issue. -/
inductive ElementType where
  | vertex
  | edge
  | face
  | mesh
  deriving DecidableEq, Repr

/-- Source `TopologyIssue` record. -/
structure TopologyIssue where
  type : IssueType
  elementType : ElementType
  elementId : Option Nat
  description : String
  deriving DecidableEq, Repr

/-- Source constant `VERY_SMALL_AREA = 1e-9` (exact in the rational model;
no claim compares an area against it). -/
def VERY_SMALL_AREA : ℚ := 1 / 1000000000

/-- Source helper `sub` in topology.ts. -/
def sub3 (a b : Vector3) : Vector3 := ⟨a.x - b.x, a.y - b.y, a.z - b.z⟩

/-- Source helper `cross` in topology.ts. -/
def cross3 (a b : Vector3) : Vector3 :=
  ⟨a.y * b.z - a.z * b.y, a.z * b.x - a.x * b.z, a.x * b.y - a.y * b.x⟩

/-- Source helper `dot` in topology.ts. -/
def dot3 (a b : Vector3) : ℚ := a.x * b.x + a.y * b.y + a.z * b.z

/-- Source helper `magnitude` in topology.ts (`Math.sqrt` modelled by
`ratSqrt`; exact on the perfect squares arising in the claims). -/
def magnitude3 (a : Vector3) : ℚ := ratSqrt (a.x * a.x + a.y * a.y + a.z * a.z)

/-- Triangle area: half the magnitude of the cross product of the first two
edges, the 3-vertex branch of the source `getFaceArea`. -/
def triArea (v0 v1 v2 : Vector3) : ℚ :=
  (1 / 2) * magnitude3 (cross3 (sub3 v1 v0) (sub3 v2 v0))

/-- Source `getFaceArea`: 0 below three vertices, triangle formula at three,
diagonal split at four, 0 otherwise. -/
def getFaceArea (verts : List Vector3) : ℚ :=
  match verts with
  | [v0, v1, v2] => triArea v0 v1 v2
  | [v0, v1, v2, v3] => triArea v0 v1 v2 + triArea v0 v2 v3
  | _ => 0

/-- Source `isQuadPlanar` with its default tolerance `1e-5`: the fourth
vertex's signed distance from the plane of the first three is below the
tolerance in absolute value; non-quads count as planar. -/
def isQuadPlanar (verts : List Vector3) : Bool :=
  match verts with
  | [v0, v1, v2, v3] =>
    let normal := cross3 (sub3 v1 v0) (sub3 v2 v0)
    decide (|dot3 normal (sub3 v3 v0)| < (1 : ℚ) / 100000)
  | _ => true

/-- Flood fill over face adjacency through shared edges, the while-loop of
check 4 in `validateTopology`.  The stack is kept top-first (a JavaScript
array `push`/`pop` works at the end).  `fuel` bounds the number of loop
iterations; callers pass more fuel than the loop can consume, so the model
agrees with the source loop. -/
def floodFill (edges : List Edge) (faces : List Face) :
    Nat → List Nat → List Nat → List Nat
  | 0, _, visited => visited
  | _ + 1, [], visited => visited
  | fuel + 1, current :: rest, visited =>
    match tget Face.id faces current with
    | none => floodFill edges faces fuel rest visited
    | some face =>
      let next := face.edgeIds.foldl
        (fun (sv : List Nat × List Nat) eid =>
          match tget Edge.id edges eid with
          | none => sv
          | some e =>
            e.faceIds.foldl
              (fun (sv2 : List Nat × List Nat) nfid =>
                if nfid ≠ current ∧ nfid ∉ sv2.2 then (nfid :: sv2.1, sv2.2 ++ [nfid])
                else sv2)
              sv)
        (rest, visited)
      floodFill edges faces fuel next.1 next.2

/-- Source `validateTopology` (validation/topology.ts): empty-mesh early
return, then orphaned-vertex, per-face (size, degeneracy, overlap by sorted
vertex-id key — modelled as the multiset of ids, an equivalent canonical
form — and quad planarity), per-edge (isolation, non-manifoldness) and
connected-component checks, in source order. -/
def validateTopology (m : EditableMesh) : List TopologyIssue :=
  let vertices := m.vertices
  let edges := m.edges
  let faces := m.faces
  if vertices.length = 0 then []
  else
    let edgeIdsOf : Nat → List Nat := fun vid =>
      edges.foldl
        (fun acc e =>
          let acc := if e.vertexIds.1 = vid then acc ++ [e.id] else acc
          if e.vertexIds.2 = vid then acc ++ [e.id] else acc)
        []
    let orphanIssues := vertices.foldl
      (fun acc v =>
        if (edgeIdsOf v.id).length = 0 then
          acc ++ [{ type := .orphanedVertex, elementType := .vertex, elementId := some v.id,
                    description :=
                      "Vertex " ++ toString v.id ++ " is not connected to any edges." }]
        else acc)
      []
    let faceStep : List TopologyIssue × List (Multiset Nat) → Face →
        List TopologyIssue × List (Multiset Nat) := fun (iss, keys) face =>
      if face.vertexIds.length < 3 ∨ 4 < face.vertexIds.length then
        (iss ++ [{ type := .invalidFaceSize, elementType := .face, elementId := some face.id,
                   description := "Face " ++ toString face.id ++
                     " has an invalid number of vertices (" ++
                     toString face.vertexIds.length ++
                     "). Only triangles and quads are supported." }],
         keys)
      else
        let faceVertices := face.vertexIds.filterMap fun vid =>
          (getVertex m vid).map Vertex.position
        let iss :=
          if faceVertices.length = face.vertexIds.length ∧
              getFaceArea faceVertices < VERY_SMALL_AREA then
            iss ++ [{ type := .degenerateFace, elementType := .face, elementId := some face.id,
                      description := "Face " ++ toString face.id ++
                        " is degenerate (has zero or near-zero area)." }]
          else iss
        let key : Multiset Nat := face.vertexIds
        let overlap := key ∈ keys
        let iss :=
          if overlap then
            iss ++ [{ type := .overlappingFace, elementType := .face, elementId := some face.id,
                      description := "Face " ++ toString face.id ++
                        " is overlapping with another face (shares the same vertices)." }]
          else iss
        let keys := if overlap then keys else keys ++ [key]
        let iss :=
          if faceVertices.length = 4 ∧ ¬ isQuadPlanar faceVertices then
            iss ++ [{ type := .nonPlanarQuad, elementType := .face, elementId := some face.id,
                      description := "Quad face " ++ toString face.id ++ " is non-planar." }]
          else iss
        (iss, keys)
    let faceIssues := (faces.foldl faceStep (orphanIssues, [])).1
    let edgeIssues := edges.foldl
      (fun acc e =>
        let acc :=
          if e.faceIds.length = 0 then
            acc ++ [{ type := .isolatedEdge, elementType := .edge, elementId := some e.id,
                      description := "Edge " ++ toString e.id ++
                        " is isolated (not part of any face)." }]
          else acc
        if 2 < e.faceIds.length then
          acc ++ [{ type := .nonManifoldEdge, elementType := .edge, elementId := some e.id,
                    description := "Edge " ++ toString e.id ++ " is non-manifold (connected to "
                      ++ toString e.faceIds.length ++ " faces)." }]
        else acc)
      faceIssues
    let componentIssues :=
      if 0 < faces.length then
        let allFaceIds := insertedOrderDedup (faces.map Face.id)
        let fuel := 1 + faces.length + (edges.map fun e => e.faceIds.length).sum
        let counted := allFaceIds.foldl
          (fun (acc : Nat × List Nat) fid =>
            if fid ∈ acc.2 then acc
            else (acc.1 + 1, floodFill edges faces fuel [fid] (acc.2 ++ [fid])))
          (0, [])
        if 1 < counted.1 then
          [{ type := .isolatedComponent, elementType := .mesh, elementId := none,
             description := "Mesh contains " ++ toString counted.1 ++
               " separate connected components (islands of faces)." }]
        else []
      else []
    edgeIssues ++ componentIssues

/-- JSON image of a vertex as consumed by `fromJSON`: entries may lack the
id or the position, in which case the defensive load skips them. -/
structure JVertex where
  id : Option Nat
  position : Option Vector3
  color : Option (ℚ × ℚ × ℚ) := none
  deriving DecidableEq, Repr

/-- JSON image of an edge as consumed by `fromJSON`. -/
structure JEdge where
  id : Option Nat
  vertexIds : Option (Nat × Nat)
  faceIds : List Nat := []
  deriving DecidableEq, Repr

/-- JSON image of a face as consumed by `fromJSON`. -/
structure JFace where
  id : Option Nat
  vertexIds : Option (List Nat)
  edgeIds : List Nat := []
  materialId : Option Nat := none
  uvs : List Vector2 := []
  deriving DecidableEq, Repr

/-- JSON image of a material as consumed by `fromJSON`; the source guard
`m.name` is JavaScript truthiness, so an empty name is skipped. -/
structure JMaterial where
  id : Option Nat
  name : String := ""
  deriving DecidableEq, Repr

/-- Parsed JSON mesh payload `{nextId, vertices[], edges[], faces[],
materials[]}`; `JSON.parse` itself is elided, the model starting from the
parsed structure. -/
structure MeshData where
  nextId : Option Nat := none
  vertices : List JVertex := []
  edges : List JEdge := []
  faces : List JFace := []
  materials : List JMaterial := []
  deriving DecidableEq, Repr

/-- Source `EditableMesh.fromJSON`: start from a fresh mesh, take
`data.nextId || 0`, then defensively insert every vertex carrying an id and
a position, every edge carrying an id and a `vertexIds` array, every face
carrying an id and a `vertexIds` array, and every material carrying an id
and a non-empty name; malformed entries are skipped silently. -/
def fromJSON (data : MeshData) : EditableMesh :=
  let vertices := data.vertices.foldl
    (fun t v =>
      match v.id, v.position with
      | some i, some p => tset Vertex.id t { id := i, position := p, color := v.color }
      | _, _ => t)
    []
  let edges := data.edges.foldl
    (fun t e =>
      match e.id, e.vertexIds with
      | some i, some vp => tset Edge.id t { id := i, vertexIds := vp, faceIds := e.faceIds }
      | _, _ => t)
    []
  let faces := data.faces.foldl
    (fun t f =>
      match f.id, f.vertexIds with
      | some i, some vl =>
        tset Face.id t
          { id := i, vertexIds := vl, edgeIds := f.edgeIds,
            materialId := f.materialId, uvs := f.uvs }
      | _, _ => t)
    []
  let materials := data.materials.foldl
    (fun t mt =>
      match mt.id with
      | some i => if mt.name ≠ "" then tset Material.id t { id := i, name := mt.name } else t
      | none => t)
    []
  { vertices := vertices, edges := edges, faces := faces, materials := materials,
    nextId := data.nextId.getD 0 }

/-- Modelled from the spec: the README documents `toJSON(): string` on
`EditableMesh`, but the method body is absent from `src/`.  Spec section 4.1
describes it as the structural export of
`{nextId, vertices[], edges[], faces[], materials[]}`, each table exported
entrywise; this definition follows those words. -/
def toJSON (m : EditableMesh) : MeshData :=
  { nextId := some m.nextId
    vertices := m.vertices.map fun v =>
      { id := some v.id, position := some v.position, color := v.color }
    edges := m.edges.map fun e =>
      { id := some e.id, vertexIds := some e.vertexIds, faceIds := e.faceIds }
    faces := m.faces.map fun f =>
      { id := some f.id, vertexIds := some f.vertexIds, edgeIds := f.edgeIds,
        materialId := f.materialId, uvs := f.uvs }
    materials := m.materials.map fun mt => { id := some mt.id, name := mt.name } }

/-! Theorems. -/

/-- Concrete mesh for claim C1: three vertices `0, 1, 2` and the two edges
`3 = (0,2)` and `4 = (2,1)`, as produced by three `addVertex` and two
`addEdge` calls. -/
def c1Mesh : EditableMesh :=
  { vertices := [⟨0, ⟨0, 0, 0⟩, none⟩, ⟨1, ⟨1, 0, 0⟩, none⟩, ⟨2, ⟨2, 0, 0⟩, none⟩]
    edges := [⟨3, (0, 2), []⟩, ⟨4, (2, 1), []⟩]
    faces := []
    materials := []
    nextId := 5 }

/-- C1: `mergeVertices c1Mesh [0, 1]` succeeds, but the resulting mesh keeps
two distinct edges (`3 = (0,2)` and `4 = (2,0)`) joining the same unordered
vertex pair `{0, 2}`: the duplicate-edge pass only scans the edges it
redirected and keys them by the ordered endpoint string, so the untouched
pre-existing edge `(0,2)` is never coalesced with the redirected `(2,0)`,
contradicting the claim that no two surviving edges share an unordered
pair. -/
theorem mergeVertices_c1_bug :
    ((mergeVertices c1Mesh [0, 1] none).toOption.map fun r =>
        (r.1.edges, r.1.faces, r.1.vertices.map Vertex.id, r.2)) =
      some ([⟨3, (0, 2), []⟩, ⟨4, (2, 0), []⟩], [], [0, 2],
        { mergedVertexId := 0, removedVertexIds := [1],
          updatedEdgeIds := [4], updatedFaceIds := [] }) ∧
    ((mergeVertices c1Mesh [0, 1] none).toOption.map fun r =>
        r.1.edges.map fun e => (e.id, boundaryKey e.vertexIds.1 e.vertexIds.2)) =
      some [(3, (0, 2)), (4, (0, 2))] := by
  refine ⟨by decide, by decide⟩

/-- Concrete mesh for claims C5: the line `(0,0,0) - (1,0,0) - (3,0,0)` with
vertices `0, 1, 2` and edges `3 = (0,1)`, `4 = (1,2)`. -/
def lineMesh : EditableMesh :=
  { vertices := [⟨0, ⟨0, 0, 0⟩, none⟩, ⟨1, ⟨1, 0, 0⟩, none⟩, ⟨2, ⟨3, 0, 0⟩, none⟩]
    edges := [⟨3, (0, 1), []⟩, ⟨4, (1, 2), []⟩]
    faces := []
    materials := []
    nextId := 5 }

/-- Smoothing options of the C5 scenario: one iteration, `alpha = 1`,
`preserveBoundaries = false`, every other option left at its default
(`preserveFeatures = true`, `featureAngle = 30`, `useWeights = true`). -/
def lineOpts : SmoothOptions :=
  { iterations := 1, alpha := 1, preserveBoundaries := false }

/-- Feature test used to instantiate `smoothMesh` on face-free meshes, where
the source's `acos` comparison is never invoked. -/
def noFeatureTest : Vector3 → Vector3 → Bool := fun _ _ => false

/-- C5 counterexample: with every unspecified option at its default —
in particular `useWeights = true`, so neighbors weigh `1/distance` — the
middle vertex of the line ends at `x = 1`, not at `x = 3/2` as the claim
states: its two neighbors contribute `0·1 + 3·(1/2)` over total weight
`3/2`. -/
theorem smoothMesh_line_c5_counterexample :
    (((getVertex (smoothMesh noFeatureTest lineMesh lineOpts) 1).map
        fun v => v.position.x) = some 1) ∧
    some (1 : ℚ) ≠ some (3 / 2 : ℚ) := by
  refine ⟨by decide, by decide⟩

/-- C5 amended: under the scenario's options with the remaining defaults the
middle vertex stays at `x = 1` (inverse-distance weights make the weighted
neighbor average equal its own position); the claimed `x = 3/2` is obtained
exactly when `useWeights` is additionally set to `false`, matching the
repository's own test of this scenario. -/
theorem smoothMesh_line_c5_amended :
    (((getVertex (smoothMesh noFeatureTest lineMesh lineOpts) 1).map
        fun v => v.position.x) = some 1) ∧
    (((getVertex (smoothMesh noFeatureTest lineMesh
          { lineOpts with useWeights := false }) 1).map
        fun v => v.position.x) = some (3 / 2)) := by
  refine ⟨by decide, by decide⟩

/-- C8: whenever `iterations ≤ 0` or `alpha ≤ 0`, `smoothMesh` returns the
mesh unchanged — every vertex position, edge, face and all other state are
exactly those of the input. -/
theorem smoothMesh_noop_c8 (ft : Vector3 → Vector3 → Bool) (m : EditableMesh)
    (opts : SmoothOptions) (h : opts.iterations ≤ 0 ∨ opts.alpha ≤ 0) :
    smoothMesh ft m opts = m := by
  unfold smoothMesh
  rw [if_pos h]

/-- C8 witness: the zero-iteration option record satisfies the guard and the
smoothing of a concrete one-vertex mesh returns it unchanged. -/
theorem smoothMesh_noop_c8_witness :
    (({ iterations := 0 } : SmoothOptions).iterations ≤ 0 ∨
      ({ iterations := 0 } : SmoothOptions).alpha ≤ 0) ∧
    smoothMesh noFeatureTest lineMesh { iterations := 0 } = lineMesh :=
  ⟨Or.inl (by decide),
   smoothMesh_noop_c8 noFeatureTest lineMesh { iterations := 0 } (Or.inl (by decide))⟩

/-- C6: `validateTopology` returns the empty issue list on an empty mesh,
and on a mesh holding exactly one vertex and no edges or faces it returns
exactly one issue, an `orphaned-vertex` issue naming that vertex's id. -/
theorem validateTopology_spec_c6 :
    (∀ m : EditableMesh, m.vertices = [] → validateTopology m = []) ∧
    (∀ (m : EditableMesh) (v : Vertex),
      m.vertices = [v] → m.edges = [] → m.faces = [] →
      validateTopology m =
        [{ type := .orphanedVertex, elementType := .vertex, elementId := some v.id,
           description := "Vertex " ++ toString v.id ++
             " is not connected to any edges." }]) := by
  constructor
  · intro m hm
    cases m
    simp only at hm
    subst hm
    rfl
  · intro m v hv he hf
    cases m
    simp only at hv he hf
    subst hv
    subst he
    subst hf
    rfl

/-- C6 witness: the two parts applied to the empty mesh and to a concrete
one-vertex mesh. -/
theorem validateTopology_spec_c6_witness :
    validateTopology { vertices := [], edges := [], faces := [], materials := [], nextId := 0 } = [] ∧
    validateTopology
        { vertices := [⟨7, ⟨1, 2, 3⟩, none⟩], edges := [], faces := [], materials := [], nextId := 8 } =
      [{ type := .orphanedVertex, elementType := .vertex, elementId := some 7,
         description := "Vertex " ++ toString (7 : Nat) ++
           " is not connected to any edges." }] :=
  ⟨validateTopology_spec_c6.1 _ rfl,
   validateTopology_spec_c6.2 _ ⟨7, ⟨1, 2, 3⟩, none⟩ rfl rfl rfl⟩

/-- A `none` table lookup means no entry carries the key. -/
theorem tget_eq_none_iff (key : α → Nat) (t : List α) (i : Nat) :
    tget key t i = none ↔ ∀ a ∈ t, key a ≠ i := by
  simp [tget, List.find?_eq_none]

/-- A successful table lookup returns a member carrying the key. -/
theorem tget_eq_some_mem (key : α → Nat) (t : List α) (i : Nat) (a : α)
    (h : tget key t i = some a) : a ∈ t ∧ key a = i := by
  refine ⟨List.mem_of_find?_eq_some h, ?_⟩
  have := List.find?_some h
  simpa using this

/-- C10: `updateFaceUVs` on an unknown face id raises nothing and returns
the mesh unchanged; the `UvCountMismatch` failure occurs exactly when the
face exists and the UV count differs from its vertex count (the source
throws before any mutation, so nothing is modified in that case); and no
other error is ever raised. -/
theorem updateFaceUVs_spec_c10 (m : EditableMesh) (faceId : Nat) (uvs : List Vector2) :
    (tget Face.id m.faces faceId = none → updateFaceUVs m faceId uvs = .ok m) ∧
    (updateFaceUVs m faceId uvs = .error .uvCountMismatch ↔
      ∃ face, tget Face.id m.faces faceId = some face ∧
        uvs.length ≠ face.vertexIds.length) ∧
    (∀ err, updateFaceUVs m faceId uvs = .error err → err = .uvCountMismatch) := by
  refine ⟨fun h => by simp [updateFaceUVs, h], ⟨?_, ?_⟩, ?_⟩
  · intro h
    unfold updateFaceUVs at h
    cases hg : tget Face.id m.faces faceId with
    | none => rw [hg] at h; simp at h
    | some face =>
      rw [hg] at h
      refine ⟨face, rfl, ?_⟩
      by_contra hl
      simp [hl] at h
  · rintro ⟨face, hg, hl⟩
    simp [updateFaceUVs, hg, hl]
  · intro err h
    unfold updateFaceUVs at h
    cases hg : tget Face.id m.faces faceId with
    | none => rw [hg] at h; simp at h
    | some face =>
      rw [hg] at h
      by_cases hl : uvs.length ≠ face.vertexIds.length
      · simp [hl] at h
        exact h.symm
      · simp [hl] at h

/-- Concrete mesh with one triangular face, used by several witnesses. -/
def triMesh : EditableMesh :=
  { vertices := [⟨0, ⟨0, 0, 0⟩, none⟩, ⟨1, ⟨1, 0, 0⟩, none⟩, ⟨2, ⟨0, 1, 0⟩, none⟩]
    edges := [⟨4, (0, 1), [3]⟩, ⟨5, (1, 2), [3]⟩, ⟨6, (2, 0), [3]⟩]
    faces := [⟨3, [0, 1, 2], [4, 5, 6], none, [⟨0, 0⟩, ⟨0, 0⟩, ⟨0, 0⟩]⟩]
    materials := []
    nextId := 7 }

/-- C10 witness: an unknown face id is ignored, and a one-element UV list on
the triangular face raises exactly the mismatch failure. -/
theorem updateFaceUVs_spec_c10_witness :
    updateFaceUVs triMesh 99 [] = .ok triMesh ∧
    updateFaceUVs triMesh 3 [⟨0, 0⟩] = .error .uvCountMismatch :=
  ⟨(updateFaceUVs_spec_c10 triMesh 99 []).1 (by decide),
   (updateFaceUVs_spec_c10 triMesh 3 [⟨0, 0⟩]).2.1.mpr
     ⟨⟨3, [0, 1, 2], [4, 5, 6], none, [⟨0, 0⟩, ⟨0, 0⟩, ⟨0, 0⟩]⟩, by decide, by decide⟩⟩

/-- C9: `assignMaterial` is silent and leaves the mesh entirely unchanged
when the face id is unknown or a non-null material id is unknown; when the
face exists and the material id is null or known, it rewrites exactly that
face's `materialId` and changes nothing else (vertices, edges, materials,
counter, the other faces and the face count all untouched). -/
theorem assignMaterial_spec_c9 (m : EditableMesh) (faceId : Nat) (materialId : Option Nat) :
    ((tget Face.id m.faces faceId = none ∨
        (∃ mid, materialId = some mid ∧ tget Material.id m.materials mid = none)) →
      assignMaterial m faceId materialId = m) ∧
    ((tget Face.id m.faces faceId).isSome →
      (materialId = none ∨
        ∃ mid, materialId = some mid ∧ (tget Material.id m.materials mid).isSome) →
      (assignMaterial m faceId materialId).vertices = m.vertices ∧
      (assignMaterial m faceId materialId).edges = m.edges ∧
      (assignMaterial m faceId materialId).materials = m.materials ∧
      (assignMaterial m faceId materialId).nextId = m.nextId ∧
      (assignMaterial m faceId materialId).faces.length = m.faces.length ∧
      ∀ f ∈ m.faces,
        (f.id ≠ faceId → f ∈ (assignMaterial m faceId materialId).faces) ∧
        (f.id = faceId →
          { f with materialId := materialId } ∈ (assignMaterial m faceId materialId).faces)) := by
  constructor
  · rintro (h | ⟨mid, rfl, h⟩)
    · simp [assignMaterial, h]
    · unfold assignMaterial
      cases hg : tget Face.id m.faces faceId with
      | none => rfl
      | some face => simp [h]
  · intro hface hmat
    cases hg : tget Face.id m.faces faceId with
    | none => rw [hg] at hface; simp at hface
    | some face =>
      have hA : assignMaterial m faceId materialId =
          { m with faces := tupd Face.id m.faces faceId (fun f => { f with materialId := materialId }) } := by
        rcases hmat with rfl | ⟨mid, rfl, hm⟩
        · simp [assignMaterial, hg]
        · have hnn : (tget Material.id m.materials mid).isNone = false := by
            cases hmm : tget Material.id m.materials mid with
            | none => rw [hmm] at hm; simp at hm
            | some _ => rfl
          simp [assignMaterial, hg, hnn]
      rw [hA]
      refine ⟨rfl, rfl, rfl, rfl, by simp [tupd], ?_⟩
      intro f hf
      constructor
      · intro hne
        have hmem : f ∈ tupd Face.id m.faces faceId
            (fun a => { a with materialId := materialId }) := by
          unfold tupd
          exact List.mem_map.mpr ⟨f, hf, by simp [hne]⟩
        exact hmem
      · intro heq
        have hmem : { f with materialId := materialId } ∈ tupd Face.id m.faces faceId
            (fun a => { a with materialId := materialId }) := by
          unfold tupd
          exact List.mem_map.mpr ⟨f, hf, by simp [heq]⟩
        exact hmem

/-- C9 witness: an unknown face id leaves the concrete triangle mesh
unchanged, and assigning `null` to its face succeeds and keeps the tables
otherwise intact. -/
theorem assignMaterial_spec_c9_witness :
    assignMaterial triMesh 99 (some 0) = triMesh ∧
    (assignMaterial triMesh 3 none).edges = triMesh.edges :=
  ⟨(assignMaterial_spec_c9 triMesh 99 (some 0)).1 (Or.inl (by decide)),
   ((assignMaterial_spec_c9 triMesh 3 none).2 (by decide) (Or.inl rfl)).2.1⟩

/-- Coordinate of the mirrored axis. -/
def axisCoord : Axis → Vector3 → ℚ
  | .x, p => p.x
  | .y, p => p.y
  | .z, p => p.z

/-- The two coordinates the mirror must not touch. -/
def offAxisCoords : Axis → Vector3 → ℚ × ℚ
  | .x, p => (p.y, p.z)
  | .y, p => (p.x, p.z)
  | .z, p => (p.x, p.y)

/-- C7: `mirrorMesh` reflects exactly the chosen coordinate of every vertex
as `coord' = origin.coord - (coord - origin.coord)` (origin defaulting to
the zero vector), keeps the other two coordinates, the vertex id and color,
reverses every face's `vertexIds` keeping the face's other fields, and
leaves the edge and material tables, the counts and the id counter
unchanged, returning the mutated mesh itself; in particular with axis `x`
and no origin a vertex at `(2,3,4)` ends at `(-2,3,4)`. -/
theorem mirrorMesh_spec_c7 (m : EditableMesh) (axis : Axis) (origin : Option Vector3) :
    (mirrorMesh m axis origin).edges = m.edges ∧
    (mirrorMesh m axis origin).materials = m.materials ∧
    (mirrorMesh m axis origin).nextId = m.nextId ∧
    (mirrorMesh m axis origin).vertices.length = m.vertices.length ∧
    (mirrorMesh m axis origin).faces.length = m.faces.length ∧
    (∀ v ∈ m.vertices, ∃ v' ∈ (mirrorMesh m axis origin).vertices,
      v'.id = v.id ∧ v'.color = v.color ∧
      axisCoord axis v'.position =
        axisCoord axis (origin.getD ⟨0, 0, 0⟩) -
          (axisCoord axis v.position - axisCoord axis (origin.getD ⟨0, 0, 0⟩)) ∧
      offAxisCoords axis v'.position = offAxisCoords axis v.position) ∧
    (∀ f ∈ m.faces,
      { f with vertexIds := f.vertexIds.reverse } ∈ (mirrorMesh m axis origin).faces) ∧
    (mirrorMesh
        { vertices := [⟨0, ⟨2, 3, 4⟩, none⟩], edges := [], faces := [],
          materials := [], nextId := 1 }
        .x none).vertices = [⟨0, ⟨-2, 3, 4⟩, none⟩] := by
  refine ⟨rfl, rfl, rfl, by simp [mirrorMesh], by simp [mirrorMesh], ?_, ?_, by decide⟩
  · intro v hv
    refine ⟨mirrorVertex axis (origin.getD ⟨0, 0, 0⟩) v, ?_, ?_⟩
    · exact List.mem_map_of_mem _ hv
    · cases axis <;> simp [mirrorVertex, axisCoord, offAxisCoords]
  · intro f hf
    exact List.mem_map_of_mem _ hf

/-- C7 witness: the frame part and the concrete `(2,3,4) ↦ (-2,3,4)`
instance extracted from the theorem at concrete inputs. -/
theorem mirrorMesh_spec_c7_witness :
    (mirrorMesh triMesh .x none).edges = triMesh.edges ∧
    (mirrorMesh
        { vertices := [⟨0, ⟨2, 3, 4⟩, none⟩], edges := [], faces := [],
          materials := [], nextId := 1 }
        .x none).vertices = [⟨0, ⟨-2, 3, 4⟩, none⟩] :=
  ⟨(mirrorMesh_spec_c7 triMesh .x none).1,
   (mirrorMesh_spec_c7 triMesh .x none).2.2.2.2.2.2.2⟩

/-- Inserting an entry whose key is absent appends it. -/
theorem tset_of_key_not_mem (key : α → Nat) (t : List α) (a : α)
    (h : key a ∉ t.map key) : tset key t a = t ++ [a] := by
  unfold tset
  have hnone : t.find? (fun b => key b = key a) = none := by
    rw [List.find?_eq_none]
    intro b hb
    simp only [decide_eq_true_eq]
    exact fun hc => h (hc ▸ List.mem_map_of_mem key hb)
  rw [hnone]
  simp

/-- Folding `tset` over entries with pairwise fresh keys appends them all. -/
theorem foldl_tset_eq_append (key : α → Nat) (l : List α) (acc : List α)
    (h : ((acc ++ l).map key).Nodup) : l.foldl (tset key) acc = acc ++ l := by
  induction l generalizing acc with
  | nil => simp
  | cons a tl ih =>
    have hmaps : (acc.map key ++ key a :: tl.map key).Nodup := by simpa using h
    have hfresh : key a ∉ acc.map key := by
      have := (List.nodup_append.mp hmaps).2.2
      intro hc
      exact this hc (List.mem_cons_self _ _)
    rw [List.foldl_cons, tset_of_key_not_mem key acc a hfresh, ih (acc ++ [a]) ?hn]
    · simp
    case hn => simpa [List.append_assoc] using h

/-- C2: for a well-formed mesh — one whose vertex and face tables carry
pairwise-distinct ids, as every mesh built through the store's counter does
— `fromJSON (toJSON m)` reconstructs the vertex table and the face table of
`m` exactly: same ids, identical positions, identical face vertex-id lists
(and all other fields).  `toJSON` is modelled from the spec since its body
is absent from `src/`. -/
theorem fromJSON_toJSON_c2 (m : EditableMesh)
    (hv : (m.vertices.map Vertex.id).Nodup)
    (hf : (m.faces.map Face.id).Nodup) :
    (fromJSON (toJSON m)).vertices = m.vertices ∧
    (fromJSON (toJSON m)).faces = m.faces := by
  constructor
  · have h1 : (fromJSON (toJSON m)).vertices = m.vertices.foldl (tset Vertex.id) [] := by
      show (m.vertices.map _).foldl _ [] = _
      rw [List.foldl_map]
    rw [h1]
    simpa using foldl_tset_eq_append Vertex.id m.vertices [] (by simpa using hv)
  · have h1 : (fromJSON (toJSON m)).faces = m.faces.foldl (tset Face.id) [] := by
      show (m.faces.map _).foldl _ [] = _
      rw [List.foldl_map]
    rw [h1]
    simpa using foldl_tset_eq_append Face.id m.faces [] (by simpa using hf)

/-- C2 witness: the round trip applied to the concrete triangle mesh, whose
id-nodup hypotheses hold by computation. -/
theorem fromJSON_toJSON_c2_witness :
    (fromJSON (toJSON triMesh)).vertices = triMesh.vertices ∧
    (fromJSON (toJSON triMesh)).faces = triMesh.faces :=
  fromJSON_toJSON_c2 triMesh (by decide) (by decide)

/-- Identity-relevant part of an edge: its id and endpoints.  `removeFace`
rewrites only `faceIds`, so this signature is invariant under it. -/
def edgeSig (e : Edge) : Nat × (Nat × Nat) := (e.id, e.vertexIds)

/-- The faceIds-stripping update of `removeFace` keeps every edge's id and
endpoints. -/
theorem tupd_strip_edges_sig (es : List Edge) (eid i : Nat) :
    (tupd Edge.id es eid fun e =>
        { e with faceIds := e.faceIds.filter fun fid => fid ≠ i }).map edgeSig =
      es.map edgeSig := by
  unfold tupd
  rw [List.map_map]
  apply List.map_congr_left
  intro e _
  by_cases h : e.id = eid <;> simp [h, edgeSig]

/-- `removeFace` keeps every edge's id and endpoints. -/
theorem removeFace_edges_sig (m : EditableMesh) (i : Nat) :
    (removeFace m i).edges.map edgeSig = m.edges.map edgeSig := by
  unfold removeFace
  cases hg : tget Face.id m.faces i with
  | none => rfl
  | some face =>
    show (face.edgeIds.foldl _ m.edges).map edgeSig = _
    generalize m.edges = es
    induction face.edgeIds generalizing es with
    | nil => rfl
    | cons a tl ih => rw [List.foldl_cons, ih, tupd_strip_edges_sig]

/-- `removeFace` keeps the vertex table. -/
theorem removeFace_vertices (m : EditableMesh) (i : Nat) :
    (removeFace m i).vertices = m.vertices := by
  unfold removeFace
  cases hg : tget Face.id m.faces i with
  | none => rfl
  | some face => rfl

/-- A face surviving `removeFace` was already there and does not carry the
removed id. -/
theorem removeFace_faces_mem (m : EditableMesh) (i : Nat) (f : Face)
    (h : f ∈ (removeFace m i).faces) : f ∈ m.faces ∧ f.id ≠ i := by
  unfold removeFace at h
  cases hg : tget Face.id m.faces i with
  | none =>
    rw [hg] at h
    have h' : f ∈ m.faces := h
    refine ⟨h', fun hc => ?_⟩
    exact (tget_eq_none_iff Face.id m.faces i).mp hg f h' hc
  | some face =>
    rw [hg] at h
    have h' : f ∈ tdel Face.id m.faces i := h
    unfold tdel at h'
    have hm := List.mem_filter.mp h'
    exact ⟨hm.1, by simpa using hm.2⟩

/-- Folding `removeFace` over a list of ids: survivors were present and match
none of the ids. -/
theorem foldl_removeFace_faces_mem (ids : List Nat) (m : EditableMesh) (f : Face)
    (h : f ∈ (ids.foldl removeFace m).faces) : f ∈ m.faces ∧ ∀ j ∈ ids, f.id ≠ j := by
  induction ids generalizing m with
  | nil => exact ⟨h, by simp⟩
  | cons a tl ih =>
    rw [List.foldl_cons] at h
    obtain ⟨h1, h2⟩ := ih (removeFace m a) h
    obtain ⟨h3, h4⟩ := removeFace_faces_mem m a f h1
    refine ⟨h3, ?_⟩
    intro j hj
    rcases List.mem_cons.mp hj with rfl | hj
    · exact h4
    · exact h2 j hj

/-- Folding `removeFace` over a list of ids keeps edge signatures. -/
theorem foldl_removeFace_edges_sig (ids : List Nat) (m : EditableMesh) :
    ((ids.foldl removeFace m).edges).map edgeSig = m.edges.map edgeSig := by
  induction ids generalizing m with
  | nil => rfl
  | cons a tl ih => rw [List.foldl_cons, ih, removeFace_edges_sig]

/-- Folding `removeFace` keeps the vertex table. -/
theorem foldl_removeFace_vertices (ids : List Nat) (m : EditableMesh) :
    (ids.foldl removeFace m).vertices = m.vertices := by
  induction ids generalizing m with
  | nil => rfl
  | cons a tl ih => rw [List.foldl_cons, ih, removeFace_vertices]

/-- The nested face-cascade fold of `removeVertex`: survivors were present
and match no id of any of the face-id lists. -/
theorem cascade_faces_mem (ls : List (List Nat)) (m : EditableMesh) (f : Face)
    (h : f ∈ (ls.foldl (fun acc l => l.foldl removeFace acc) m).faces) :
    f ∈ m.faces ∧ ∀ l ∈ ls, ∀ j ∈ l, f.id ≠ j := by
  induction ls generalizing m with
  | nil => exact ⟨h, by simp⟩
  | cons a tl ih =>
    rw [List.foldl_cons] at h
    obtain ⟨h1, h2⟩ := ih _ h
    obtain ⟨h3, h4⟩ := foldl_removeFace_faces_mem a m f h1
    refine ⟨h3, ?_⟩
    intro l hl j hj
    rcases List.mem_cons.mp hl with rfl | hl
    · exact h4 j hj
    · exact h2 l hl j hj

/-- The nested face-cascade fold keeps edge signatures. -/
theorem cascade_edges_sig (ls : List (List Nat)) (m : EditableMesh) :
    ((ls.foldl (fun acc l => l.foldl removeFace acc) m).edges).map edgeSig =
      m.edges.map edgeSig := by
  induction ls generalizing m with
  | nil => rfl
  | cons a tl ih => rw [List.foldl_cons, ih, foldl_removeFace_edges_sig]

/-- The edge-deletion fold of `removeVertex`: a surviving edge was present
and its id matches none of the deleted edges. -/
theorem edge_delete_fold_mem (cs : List Edge) (m : EditableMesh) (e : Edge)
    (h : e ∈ (cs.foldl (fun acc c => { acc with edges := tdel Edge.id acc.edges c.id }) m).edges) :
    e ∈ m.edges ∧ ∀ c ∈ cs, e.id ≠ c.id := by
  induction cs generalizing m with
  | nil => exact ⟨h, by simp⟩
  | cons a tl ih =>
    rw [List.foldl_cons] at h
    obtain ⟨h1, h2⟩ := ih _ h
    have h1' : e ∈ tdel Edge.id m.edges a.id := h1
    unfold tdel at h1'
    have hm := List.mem_filter.mp h1'
    refine ⟨hm.1, ?_⟩
    intro c hc
    rcases List.mem_cons.mp hc with rfl | hc
    · simpa using hm.2
    · exact h2 c hc

/-- The edge-deletion fold keeps the face table. -/
theorem edge_delete_fold_faces (cs : List Edge) (m : EditableMesh) :
    (cs.foldl (fun acc c => { acc with edges := tdel Edge.id acc.edges c.id }) m).faces =
      m.faces := by
  induction cs generalizing m with
  | nil => rfl
  | cons a tl ih => rw [List.foldl_cons, ih]

/-- C4: `removeVertex` on an absent id leaves the mesh unchanged; on a
present id — in a mesh where, as the store's own mutators maintain, every
face touching the vertex is registered in the `faceIds` of some edge
touching it — the cascade leaves no vertex entry with the removed id, no
edge whose endpoints contain it, and no face whose `vertexIds` contain
it. -/
theorem removeVertex_spec_c4 (m : EditableMesh) (i : Nat) :
    (tget Vertex.id m.vertices i = none → removeVertex m i = m) ∧
    ((tget Vertex.id m.vertices i).isSome →
      (∀ f ∈ m.faces, i ∈ f.vertexIds →
        ∃ e ∈ m.edges, edgeTouches e i ∧ f.id ∈ e.faceIds) →
      (∀ v ∈ (removeVertex m i).vertices, v.id ≠ i) ∧
      (∀ e ∈ (removeVertex m i).edges, ¬ edgeTouches e i) ∧
      (∀ f ∈ (removeVertex m i).faces, i ∉ f.vertexIds)) := by
  constructor
  · intro h
    simp [removeVertex, h]
  · intro hsome hreg
    cases hv : tget Vertex.id m.vertices i with
    | none => rw [hv] at hsome; simp at hsome
    | some v0 =>
      refine ⟨?_, ?_, ?_⟩
      · intro v hvm
        simp only [removeVertex, hv] at hvm
        have hvm' := List.mem_filter.mp hvm
        simpa using hvm'.2
      · intro e hem
        simp only [removeVertex, hv] at hem
        obtain ⟨h1, h2⟩ := edge_delete_fold_mem _ _ e hem
        have hsig := cascade_edges_sig
          ((m.edges.filter fun e => decide (edgeTouches e i)).map Edge.faceIds) m
        have hesig : edgeSig e ∈ m.edges.map edgeSig := by
          rw [← hsig]
          exact List.mem_map_of_mem edgeSig h1
        obtain ⟨e0, he0, hsigeq⟩ := List.mem_map.mp hesig
        intro htouch
        have htouch0 : edgeTouches e0 i := by
          have hvids : e0.vertexIds = e.vertexIds := congrArg Prod.snd hsigeq
          unfold edgeTouches at htouch ⊢
          rw [hvids]
          exact htouch
        have he0conn : e0 ∈ m.edges.filter fun e => decide (edgeTouches e i) :=
          List.mem_filter.mpr ⟨he0, by simpa using htouch0⟩
        have hid : e0.id = e.id := congrArg Prod.fst hsigeq
        exact (h2 e0 he0conn) (hid ▸ rfl)
      · intro f hfm
        simp only [removeVertex, hv] at hfm
        rw [edge_delete_fold_faces] at hfm
        obtain ⟨h1, h2⟩ := cascade_faces_mem _ _ f hfm
        intro hin
        obtain ⟨e, he, htouch, hfid⟩ := hreg f h1 hin
        have heconn : e ∈ m.edges.filter fun e => decide (edgeTouches e i) :=
          List.mem_filter.mpr ⟨he, by simpa using htouch⟩
        exact h2 e.faceIds (List.mem_map_of_mem Edge.faceIds heconn) f.id hfid rfl

/-- C4 witness: removing an absent vertex id from the triangle mesh is a
no-op, and removing a present one (whose faces are registered on its edges)
leaves nothing referencing it. -/
theorem removeVertex_spec_c4_witness :
    removeVertex triMesh 99 = triMesh ∧
    (removeVertex triMesh 0).vertices.length = 2 ∧
    (removeVertex triMesh 0).edges = [⟨5, (1, 2), []⟩] ∧
    (removeVertex triMesh 0).faces = [] := by
  refine ⟨(removeVertex_spec_c4 triMesh 99).1 (by decide), by decide, by decide, by decide⟩

/-- Loop invariant of the `addFace` edge loop: edge ids are pairwise
distinct and below the running counter, the face id is below the counter,
and an edge's `faceIds` mention the new face exactly once if its id has been
collected into `edgeIds` and never otherwise. -/
def addFaceInv (faceId : Nat) (s : AddFaceState) : Prop :=
  (s.edges.map Edge.id).Nodup ∧
  (∀ e ∈ s.edges, e.id < s.nextId) ∧
  faceId < s.nextId ∧
  (∀ e ∈ s.edges, e.faceIds.count faceId = if e.id ∈ s.edgeIds then 1 else 0)

/-- Membership in an updated table comes from a member of the original,
transformed exactly when its key matches. -/
theorem mem_tupd_iff (key : α → Nat) (t : List α) (i : Nat) (f : α → α) (b : α) :
    b ∈ tupd key t i f ↔ ∃ x ∈ t, b = if key x = i then f x else x := by
  unfold tupd
  rw [List.mem_map]
  constructor
  · rintro ⟨x, hx, rfl⟩
    exact ⟨x, hx, rfl⟩
  · rintro ⟨x, hx, rfl⟩
    exact ⟨x, hx, rfl⟩

/-- After replacing the (present) entry keyed like `a` by `a`, a search for
that key finds `a`. -/
theorem find?_map_replace (key : α → Nat) (t : List α) (a : α)
    (h : ∃ b ∈ t, key b = key a) :
    (t.map fun b => if key b = key a then a else b).find? (fun b => key b = key a) =
      some a := by
  induction t with
  | nil => simp at h
  | cons c tl ih =>
    by_cases hc : key c = key a
    · simp [hc]
    · rw [List.map_cons, if_neg hc, List.find?_cons_of_neg]
      · apply ih
        obtain ⟨b, hb, hkb⟩ := h
        rcases List.mem_cons.mp hb with rfl | hb
        · exact absurd hkb hc
        · exact ⟨b, hb, hkb⟩
      · simpa using hc

/-- A search for a fresh key over the table with `a` appended finds `a`. -/
theorem find?_append_self (key : α → Nat) (t : List α) (a : α)
    (h : ∀ b ∈ t, key b ≠ key a) :
    (t ++ [a]).find? (fun b => key b = key a) = some a := by
  induction t with
  | nil => simp
  | cons c tl ih =>
    rw [List.cons_append, List.find?_cons_of_neg]
    · exact ih fun b hb => h b (List.mem_cons_of_mem _ hb)
    · simpa using h c (List.mem_cons_self _ _)

/-- Looking a key up right after setting it returns the set entry. -/
theorem tget_tset_self (key : α → Nat) (t : List α) (a : α) :
    tget key (tset key t a) (key a) = some a := by
  unfold tget tset
  by_cases h : (t.find? fun b => key b = key a).isSome
  · rw [if_pos h]
    apply find?_map_replace
    obtain ⟨b, hb⟩ := Option.isSome_iff_exists.mp h
    exact ⟨b, List.mem_of_find?_eq_some hb, by simpa using List.find?_some hb⟩
  · rw [if_neg h]
    apply find?_append_self
    intro b hb hc
    rw [Option.not_isSome_iff_eq_none] at h
    have := List.find?_eq_none.mp h b hb
    simp only [decide_eq_true_eq] at this
    exact this hc

/-- The `addFace` edge-loop step preserves the loop invariant. -/
theorem addFaceStep_inv (faceId : Nat) (s : AddFaceState) (p : Nat × Nat)
    (h : addFaceInv faceId s) : addFaceInv faceId (addFaceStep faceId s p) := by
  obtain ⟨hnd, hlt, hfid, hcnt⟩ := h
  unfold addFaceStep
  cases hfind : s.edges.find? (fun e => decide (matchesPair p.1 p.2 e)) with
  | some e =>
    have he : e ∈ s.edges := List.mem_of_find?_eq_some hfind
    show addFaceInv faceId
      { s with
        edges := tupd Edge.id s.edges e.id fun e' =>
          if faceId ∈ e'.faceIds then e'
          else { e' with faceIds := e'.faceIds ++ [faceId] }
        edgeIds := s.edgeIds ++ [e.id] }
    have hkeys : (tupd Edge.id s.edges e.id (fun e' =>
        if faceId ∈ e'.faceIds then e'
        else { e' with faceIds := e'.faceIds ++ [faceId] })).map Edge.id =
          s.edges.map Edge.id := by
      unfold tupd
      rw [List.map_map]
      apply List.map_congr_left
      intro x _
      by_cases hx : x.id = e.id <;> by_cases hfx : faceId ∈ x.faceIds <;> simp [hx, hfx]
    refine ⟨by rw [hkeys]; exact hnd, ?_, hfid, ?_⟩
    · intro e' he'
      obtain ⟨x, hx, rfl⟩ := (mem_tupd_iff Edge.id s.edges e.id _ e').mp he'
      show (if Edge.id x = e.id then
          (if faceId ∈ x.faceIds then x else { x with faceIds := x.faceIds ++ [faceId] })
        else x).id < s.nextId
      by_cases hxe : Edge.id x = e.id
      · rw [if_pos hxe]
        by_cases hfx : faceId ∈ x.faceIds
        · rw [if_pos hfx]
          exact hlt x hx
        · rw [if_neg hfx]
          exact hlt x hx
      · rw [if_neg hxe]
        exact hlt x hx
    · intro e' he'
      obtain ⟨x, hx, rfl⟩ := (mem_tupd_iff Edge.id s.edges e.id _ e').mp he'
      show (if Edge.id x = e.id then
            (if faceId ∈ x.faceIds then x else { x with faceIds := x.faceIds ++ [faceId] })
          else x).faceIds.count faceId =
        if (if Edge.id x = e.id then
            (if faceId ∈ x.faceIds then x else { x with faceIds := x.faceIds ++ [faceId] })
          else x).id ∈ s.edgeIds ++ [e.id] then 1 else 0
      by_cases hxe : Edge.id x = e.id
      · have hxeq : x = e := List.inj_on_of_nodup_map hnd hx he hxe
        rw [if_pos hxe]
        by_cases hfx : faceId ∈ x.faceIds
        · have h1 : x.faceIds.count faceId = 1 := by
            have hx2 := hcnt x hx
            have hpos : 0 < x.faceIds.count faceId := List.count_pos_iff.mpr hfx
            by_cases hm : x.id ∈ s.edgeIds
            · simpa [hm] using hx2
            · rw [hx2, if_neg hm] at hpos
              omega
          rw [if_pos hfx, h1, if_pos (by simp [hxeq])]
        · have h0 : x.faceIds.count faceId = 0 := List.count_eq_zero.mpr hfx
          rw [if_neg hfx]
          show (x.faceIds ++ [faceId]).count faceId =
            if Edge.id x ∈ s.edgeIds ++ [e.id] then 1 else 0
          rw [if_pos (by simp [hxe]), List.count_append, h0]
          simp
      · rw [if_neg hxe]
        rw [hcnt x hx]
        have hiff : (Edge.id x ∈ s.edgeIds ++ [e.id]) ↔ x.id ∈ s.edgeIds := by
          simp [hxe]
        by_cases hm : x.id ∈ s.edgeIds
        · rw [if_pos hm, if_pos (hiff.mpr hm)]
        · rw [if_neg hm, if_neg (fun hc => hm (hiff.mp hc))]
  | none =>
    show addFaceInv faceId
      { nextId := s.nextId + 1
        edges := tset Edge.id s.edges { id := s.nextId, vertexIds := p, faceIds := [faceId] }
        edgeIds := s.edgeIds ++ [s.nextId] }
    have hfresh : Edge.id { id := s.nextId, vertexIds := p, faceIds := [faceId] } ∉
        s.edges.map Edge.id := by
      intro hc
      obtain ⟨x, hx, hxe⟩ := List.mem_map.mp hc
      exact absurd hxe (Nat.ne_of_lt (hlt x hx))
    rw [tset_of_key_not_mem _ _ _ hfresh]
    refine ⟨?_, ?_, Nat.lt_succ_of_lt hfid, ?_⟩
    · rw [List.map_append, List.nodup_append]
      refine ⟨hnd, List.nodup_singleton _, ?_⟩
      intro a ha hb
      simp only [List.map_cons, List.map_nil, List.mem_singleton] at hb
      subst hb
      exact hfresh ha
    · intro e' he'
      rcases List.mem_append.mp he' with hold | hnew
      · exact Nat.lt_succ_of_lt (hlt e' hold)
      · simp only [List.mem_singleton] at hnew
        subst hnew
        exact Nat.lt_succ_self _
    · intro e' he'
      rcases List.mem_append.mp he' with hold | hnew
      · rw [hcnt e' hold]
        have hne : e'.id ≠ s.nextId := Nat.ne_of_lt (hlt e' hold)
        have hiff : (Edge.id e' ∈ s.edgeIds ++ [s.nextId]) ↔ e'.id ∈ s.edgeIds := by
          simp [hne]
        by_cases hm : e'.id ∈ s.edgeIds
        · rw [if_pos hm, if_pos (hiff.mpr hm)]
        · rw [if_neg hm, if_neg (fun hc => hm (hiff.mp hc))]
      · simp only [List.mem_singleton] at hnew
        subst hnew
        simp

/-- The `addFace` edge loop preserves the loop invariant. -/
theorem foldl_addFaceStep_inv (faceId : Nat) (pairs : List (Nat × Nat)) (s : AddFaceState)
    (h : addFaceInv faceId s) :
    addFaceInv faceId (pairs.foldl (addFaceStep faceId) s) := by
  induction pairs generalizing s with
  | nil => exact h
  | cons a tl ih => exact ih _ (addFaceStep_inv faceId s a h)

/-- Each `addFace` edge-loop step collects exactly one edge id. -/
theorem addFaceStep_edgeIds_len (faceId : Nat) (s : AddFaceState) (p : Nat × Nat) :
    (addFaceStep faceId s p).edgeIds.length = s.edgeIds.length + 1 := by
  unfold addFaceStep
  cases hfind : s.edges.find? (fun e => decide (matchesPair p.1 p.2 e)) <;> simp

/-- The `addFace` edge loop collects one edge id per consecutive pair. -/
theorem foldl_addFaceStep_edgeIds_len (faceId : Nat) (pairs : List (Nat × Nat))
    (s : AddFaceState) :
    (pairs.foldl (addFaceStep faceId) s).edgeIds.length =
      s.edgeIds.length + pairs.length := by
  induction pairs generalizing s with
  | nil => simp
  | cons a tl ih =>
    rw [List.foldl_cons, ih, addFaceStep_edgeIds_len, List.length_cons]
    omega

/-- C3: on a store-invariant mesh (edge ids pairwise distinct and below the
counter, no edge already listing the about-to-be-issued face id), `addFace`
over at least three present vertex ids succeeds, returns the fresh face id,
and the created face has exactly one collected edge id per vertex and every
edge whose id it collected lists the new face exactly once in its
`faceIds`. -/
theorem addFace_spec_c3 (m : EditableMesh) (vertexIds : List Nat) (materialId : Option Nat)
    (hnd : (m.edges.map Edge.id).Nodup)
    (hlt : ∀ e ∈ m.edges, e.id < m.nextId)
    (hcnt : ∀ e ∈ m.edges, m.nextId ∉ e.faceIds)
    (h3 : 3 ≤ vertexIds.length)
    (hv : ∀ v ∈ vertexIds, (getVertex m v).isSome) :
    ∃ m', addFace m vertexIds materialId = .ok (m', m.nextId) ∧
      ∃ face, tget Face.id m'.faces m.nextId = some face ∧
        face.vertexIds = vertexIds ∧
        face.edgeIds.length = vertexIds.length ∧
        ∀ eid ∈ face.edgeIds, ∀ e ∈ m'.edges, e.id = eid →
          e.faceIds.count m.nextId = 1 := by
  have hguard : ¬ vertexIds.length < 3 := by omega
  have hfind : vertexIds.find? (fun v => (getVertex m v).isNone) = none := by
    rw [List.find?_eq_none]
    intro v hvm
    have hvs := hv v hvm
    intro hc
    rw [Option.isNone_iff_eq_none] at hc
    rw [hc] at hvs
    simp at hvs
  have hinv := foldl_addFaceStep_inv m.nextId (vertexIds.zip (vertexIds.rotate 1))
    { nextId := m.nextId + 1, edges := m.edges, edgeIds := [] }
    ⟨hnd, fun e he => Nat.lt_succ_of_lt (hlt e he), Nat.lt_succ_self _,
      fun e he => by simpa using List.count_eq_zero.mpr (hcnt e he)⟩
  have hlen := foldl_addFaceStep_edgeIds_len m.nextId (vertexIds.zip (vertexIds.rotate 1))
    { nextId := m.nextId + 1, edges := m.edges, edgeIds := [] }
  refine ⟨(addFaceBody m vertexIds materialId).1, ?_, ?_⟩
  · show addFace m vertexIds materialId = .ok ((addFaceBody m vertexIds materialId).1, m.nextId)
    unfold addFace
    rw [if_neg hguard, hfind]
    rfl
  · obtain ⟨-, -, -, hc⟩ := hinv
    refine ⟨_, tget_tset_self Face.id m.faces _, rfl, ?_, ?_⟩
    · show ((vertexIds.zip (vertexIds.rotate 1)).foldl (addFaceStep m.nextId)
          { nextId := m.nextId + 1, edges := m.edges, edgeIds := [] }).edgeIds.length =
        vertexIds.length
      rw [hlen]
      simp [List.length_zip, List.length_rotate]
    · intro eid heid e he hide
      have hce := hc e he
      rw [hce, if_pos (hide ▸ heid)]

/-- C3 witness: adding the triangle face over the three present vertices of
the line mesh (whose two existing edges get reused and one new edge is
created) succeeds. -/
theorem addFace_spec_c3_witness :
    (addFace lineMesh [0, 1, 2] none).toOption.isSome = true := by
  obtain ⟨m', hm', -⟩ := addFace_spec_c3 lineMesh [0, 1, 2] none
    (by decide) (by decide) (by decide) (by decide) (by decide)
  rw [hm']
  rfl

end MeshMaster
